import Mathlib

/-!
Verification of the decision-evaluation and decision-record core of the
`bank_digital_worker` backend.

The JSON-file backend (`backend.py`, the unnamed source file) persists decision
records in `decisions.json` and reads customer data from two JSON files; the
Supabase backend (`agent.py`) stores decision rows in a `loan_decisions` table.
Dict-shaped records read with `.get(...)` defaults are embedded as structures
with `Option`-typed fields; Python numbers are embedded as rationals; the
content of the decisions file (including a missing file, unparsable JSON, and
JSON that is not a list) is embedded as `StoreContent`.
-/

namespace BankWorker

/-- A decision record as stored in `decisions.json` (and a row of the
`loan_decisions` table): keys `id`, `customer_id`, `decision`, `reason`,
`created_at`, each read back with `.get`, hence `Option`-typed. -/
structure DecisionRecord where
  id : Option String
  customer_id : Option String
  decision : Option String
  reason : Option String
  created_at : Option String
deriving DecidableEq, Repr

/-- Sort key used by `list_decisions`: `x.get("created_at", "")`. -/
def createdAtKey (r : DecisionRecord) : String :=
  r.created_at.getD ""

/-- The content of the decisions file as seen by `_read_json_file` and
`_load_decisions`: the file can be missing (read as `{}`), hold invalid JSON
(`json.load` raises, read as `{}`), hold valid JSON that is not a list, or
hold a JSON list of records. -/
inductive StoreContent
  | missing
  | invalidJson
  | nonList
  | records (l : List DecisionRecord)
deriving DecidableEq, Repr

/-- `_load_decisions`: `_read_json_file(DECISIONS_FILE)` yields `{}` for a
missing file or a parse failure, and `_load_decisions` returns the data only
when `isinstance(data, list)`, else `[]`. -/
def load_decisions : StoreContent → List DecisionRecord
  | .records l => l
  | _ => []

/-- `_append_decision`: load the current decisions, append the new object,
write the whole list back. -/
def append_decision (s : StoreContent) (r : DecisionRecord) : StoreContent :=
  .records (load_decisions s ++ [r])

/-- `record_decision`: build the record (fresh `id` and `created_at` are
passed in here, standing for `uuid.uuid4()` and `datetime.utcnow()`) and
append it via `_append_decision`. -/
def record_decision (s : StoreContent) (customerId decision reason newId createdAt : String) :
    StoreContent :=
  append_decision s ⟨some newId, some customerId, some decision, some reason, some createdAt⟩

/-- Comparison used by `list_decisions`:
`sorted(filtered, key=lambda x: x.get("created_at", ""), reverse=True)` is a
stable sort that puts `a` before `b` whenever the key of `b` is at most the
key of `a`. -/
def moreRecent (a b : DecisionRecord) : Bool :=
  decide (createdAtKey b ≤ createdAtKey a)

/-- The filtering step of `list_decisions`: `if customer_id:` is Python
truthiness, so both `None` and the empty string leave the list unfiltered;
a non-empty id keeps the records with `d.get("customer_id") == customer_id`. -/
def decisions_filtered (l : List DecisionRecord) (customerId : Option String) :
    List DecisionRecord :=
  match customerId with
  | none => l
  | some c => if c = "" then l else l.filter fun d => decide (d.customer_id = some c)

/-- `list_decisions` of the JSON backend: filter by truthy `customer_id`,
sort most-recent-first by `created_at`, truncate with `[:limit]`. -/
def list_decisions (l : List DecisionRecord) (customerId : Option String) (limit : Nat) :
    List DecisionRecord :=
  ((decisions_filtered l customerId).mergeSort moreRecent).take limit

/-- Concrete record used by witnesses. -/
def sampleRecord : DecisionRecord :=
  ⟨some "d1", some "C1", some "APPROVE", some "all rules satisfied", some "2024-01-01T00:00:00"⟩

/-- Concrete record for customer "A". -/
def recA : DecisionRecord :=
  ⟨some "d9", some "A", some "REJECT", some "income below threshold", some "2024-01-02T00:00:00"⟩

/-- Concrete record for customer "B". -/
def recB : DecisionRecord :=
  ⟨some "d8", some "B", some "REVIEW", some "ten rules satisfied", some "2024-02-01T00:00:00"⟩

/-- Modelled from the spec: the DecisionMapper (spec section 4.3). The
repository states the count-to-decision mapping only as the decision-rule
block of `DEFAULT_RULES_TEXT` (prompt text executed by the LLM agent); no
executable implementation exists under `src`, so the mapping is transcribed
here from those rule lines: `== 11` gives APPROVE, `8 <= n < 11` gives
REVIEW, `< 8` gives REJECT. -/
def decision_from_rules_satisfied (n : Nat) : Option String :=
  if n = 11 then some "APPROVE"
  else if 8 ≤ n ∧ n < 11 then some "REVIEW"
  else if n < 8 then some "REJECT"
  else none

/-- `update_decision_row` of the Supabase backend:
`safe_update("loan_decisions", payload, "id", decision_id)` with the payload
built by the `/update-decisions` endpoint, replacing the `customer_id`,
`decision` and `reason` columns of every row whose `id` equals the given
decision id and leaving every other row untouched. -/
def update_decision_row (table : List DecisionRecord) (decisionId : String)
    (customerId decision reason : String) : List DecisionRecord :=
  table.map fun row =>
    if row.id = some decisionId then
      { row with customer_id := some customerId, decision := some decision,
                 reason := some reason }
    else row

/-- First decision row of customer "C9". -/
def rowOne : DecisionRecord :=
  ⟨some "1", some "C9", some "REVIEW", some "nine rules satisfied", some "2024-01-01T00:00:00"⟩

/-- Second decision row of customer "C9". -/
def rowTwo : DecisionRecord :=
  ⟨some "2", some "C9", some "REJECT", some "five rules satisfied", some "2024-01-02T00:00:00"⟩

/-- A credit card as stored under a customer account: `credit_limit` and
`current_balance` are read with `.get(...) or 0`, hence `Option`-typed
rationals read back with default 0. -/
structure CreditCard where
  card_id : Option String
  credit_limit : Option ℚ
  current_balance : Option ℚ
deriving DecidableEq, Repr

/-- `sum((c.get("credit_limit") or 0) for c in cards)`. -/
def total_credit_limit (cards : List CreditCard) : ℚ :=
  (cards.map fun c => c.credit_limit.getD 0).sum

/-- `sum((c.get("current_balance") or 0) for c in cards)`. -/
def total_balance (cards : List CreditCard) : ℚ :=
  (cards.map fun c => c.current_balance.getD 0).sum

/-- `credit_util = (total_balance / total_credit_limit * 100) if
total_credit_limit else None`: the Python truthiness test on a number is a
nonzero test, so a zero total credit limit short-circuits to `None` and the
division is never evaluated. -/
def credit_utilization_pct (cards : List CreditCard) : Option ℚ :=
  if total_credit_limit cards = 0 then none
  else some (total_balance cards / total_credit_limit cards * 100)

/-- Card with a positive limit. -/
def cardA : CreditCard := ⟨some "4111", some 1000, some 250⟩

/-- Card with a zero limit. -/
def cardZ : CreditCard := ⟨some "4222", some 0, some 50⟩

/-- A bank transaction: `date`, `amount` and `type` are all read with `.get`. -/
structure Transaction where
  date : Option String
  amount : Option ℚ
  type : Option String
deriving DecidableEq, Repr

/-- Sort key of `get_transactions`: `x.get("date") or ""`. -/
def dateKey (t : Transaction) : String :=
  t.date.getD ""

/-- `sorted(txs, key=..., reverse=True)` puts `a` before `b` whenever the date
key of `b` is at most the date key of `a`. -/
def laterDate (a b : Transaction) : Bool :=
  decide (dateKey b ≤ dateKey a)

/-- One entry of `bank_statements.json`: a customer id with its transactions
(`entry.get("transactions", [])`). -/
structure StatementEntry where
  customer_id : Option String
  transactions : List Transaction
deriving DecidableEq, Repr

/-- `get_transactions` of the JSON backend: the first statement entry whose
`customer_id` matches supplies the transactions, sorted by date descending
and truncated with `[:limit]`; no matching entry yields `[]`. -/
def get_transactions (stmts : List StatementEntry) (customerId : String) (limit : Nat) :
    List Transaction :=
  match stmts.find? fun e => decide (e.customer_id = some customerId) with
  | some e => (e.transactions.mergeSort laterDate).take limit
  | none => []

/-- Python `str.lower()`, embedded characterwise over the string's characters
(`Char.toLower`, identical to `.lower()` on the ASCII data at hand). -/
def py_lower (s : String) : String :=
  String.mk (s.data.map Char.toLower)

/-- Membership test of the income estimate:
`str(t.get("type", "")).lower() == "credit"` — note the lowercasing. -/
def isCreditTx (t : Transaction) : Bool :=
  py_lower (t.type.getD "") == "credit"

/-- `monthly_income_estimate` of `api_chat`: `max((t.get("amount") or 0) for t
in credits)` when the credit-type sublist of the window is non-empty, `None`
otherwise. -/
def monthly_income_estimate (txs : List Transaction) : Option ℚ :=
  ((txs.filter isCreditTx).map fun t => t.amount.getD 0).max?

/-- The per-customer income estimate of `api_chat`, over the window
`get_transactions(customer_id, limit=50)`. -/
def monthly_income_estimate_chat (stmts : List StatementEntry) (customerId : String) : Option ℚ :=
  monthly_income_estimate (get_transactions stmts customerId 50)

/-- A transaction whose `type` is "Credit" (capitalised). -/
def txCredit : Transaction := ⟨some "2024-01-05", some 5, some "Credit"⟩

/-- A bank-statement entry holding only `txCredit`, for customer "C1". -/
def entryC1 : StatementEntry := ⟨some "C1", [txCredit]⟩

/-- A loan as stored under a customer account: `outstanding_amount` (with the
alternate key `outstanding` consulted by agent.py) read with `.get`. -/
structure Loan where
  loan_id : Option String
  outstanding_amount : Option ℚ
  outstanding : Option ℚ
deriving DecidableEq, Repr

/-- Python `x.get(k) or y` on an optional number: a missing value and a zero
value both fall through to the alternative (numeric falsiness). -/
def pyOrQ (v : Option ℚ) (dflt : ℚ) : ℚ :=
  match v with
  | none => dflt
  | some x => if x = 0 then dflt else x

/-- `active_loans_count` of agent.py `api_chat` (line 961):
`len([l for l in loans if (l.get("outstanding_amount") or l.get("outstanding") or 0) > 0])`. -/
def active_loans_count_agent (loans : List Loan) : Nat :=
  (loans.filter fun l => decide (0 < pyOrQ l.outstanding_amount (pyOrQ l.outstanding 0))).length

/-- `active_loans_count` of the JSON backend's `api_chat` summary (line 335):
`"active_loans_count": len(loans)` — every loan is counted. -/
def active_loans_count_backend (loans : List Loan) : Nat :=
  loans.length

/-- A fully repaid loan: outstanding amount exactly 0. -/
def repaidLoan : Loan := ⟨some "L1", some 0, none⟩

/-- A customer account of `credits_loan.json`: `credit_cards` and `loans` are
read with `.get(..., []) or []`, hence `Option`-typed lists read back with
default `[]`. -/
structure Customer where
  customer_id : Option String
  name : Option String
  account_creation_date : Option String
  credit_cards : Option (List CreditCard)
  loans : Option (List Loan)
deriving DecidableEq, Repr

/-- `get_customer` of the JSON backend: the first account whose
`customer_id` key equals the requested id, else `None`. -/
def get_customer (customers : List Customer) (customerId : String) : Option Customer :=
  customers.find? fun c => decide (c.customer_id = some customerId)

/-- `get_credit_cards`: `[]` for an unknown customer, else
`cust.get("credit_cards", []) or []`. -/
def get_credit_cards (customers : List Customer) (customerId : String) : List CreditCard :=
  match get_customer customers customerId with
  | none => []
  | some c => c.credit_cards.getD []

/-- `get_loans`: `[]` for an unknown customer, else
`cust.get("loans", []) or []`. -/
def get_loans (customers : List Customer) (customerId : String) : List Loan :=
  match get_customer customers customerId with
  | none => []
  | some c => c.loans.getD []

/-- A customer account for "C1". -/
def custC1 : Customer :=
  ⟨some "C1", some "Alice", some "2023-01-01", some [cardA], some [repaidLoan]⟩

/-- Loading the store after a fold of appends yields the old records followed
by the appended ones, in order. -/
theorem load_foldl_append (s : StoreContent) (rs : List DecisionRecord) :
    load_decisions (rs.foldl append_decision s) = load_decisions s ++ rs := by
  induction rs generalizing s with
  | nil => simp
  | cons r rs ih =>
      simp only [List.foldl_cons, ih (append_decision s r)]
      simp [append_decision, load_decisions, List.append_assoc]

/-- The length of a query with no customer filter is the length of the
underlying list, capped at the limit. -/
theorem length_list_decisions_none (l : List DecisionRecord) (limit : Nat) :
    (list_decisions l none limit).length = min limit l.length := by
  simp [list_decisions, decisions_filtered]

/-- C2: the decision-store append operation is monotonic and non-destructive:
appending records changes the store to the old records followed by the new
ones (no existing record modified), and after N appends a query over all
customers with a large enough limit returns exactly N more records. -/
theorem append_monotonic (s : StoreContent) (rs : List DecisionRecord) (L L' : Nat)
    (hL : (load_decisions s).length ≤ L)
    (hL' : (load_decisions (rs.foldl append_decision s)).length ≤ L') :
    load_decisions (rs.foldl append_decision s) = load_decisions s ++ rs ∧
    (list_decisions (load_decisions (rs.foldl append_decision s)) none L').length
      = (list_decisions (load_decisions s) none L).length + rs.length := by
  refine ⟨load_foldl_append s rs, ?_⟩
  rw [length_list_decisions_none, length_list_decisions_none]
  rw [load_foldl_append s rs] at hL' ⊢
  simp only [List.length_append] at hL' ⊢
  omega

theorem append_monotonic_witness :
    load_decisions ([sampleRecord].foldl append_decision (StoreContent.records []))
      = load_decisions (StoreContent.records []) ++ [sampleRecord] ∧
    (list_decisions
        (load_decisions ([sampleRecord].foldl append_decision (StoreContent.records []))) none 1).length
      = (list_decisions (load_decisions (StoreContent.records [])) none 0).length
        + [sampleRecord].length :=
  append_monotonic (StoreContent.records []) [sampleRecord] 0 1 (by decide) (by decide)

/-- C9: writing a decision to a store whose existing content is malformed
(invalid JSON, or JSON that is not a list) treats the content as an empty
store, so after the write the store holds exactly the new record. -/
theorem append_on_malformed_store (r : DecisionRecord) :
    load_decisions (append_decision StoreContent.invalidJson r) = [r] ∧
    load_decisions (append_decision StoreContent.nonList r) = [r] ∧
    load_decisions (append_decision StoreContent.missing r) = [r] :=
  ⟨rfl, rfl, rfl⟩

/-- The comparison `moreRecent` is transitive. -/
theorem moreRecent_trans (a b c : DecisionRecord) :
    moreRecent a b → moreRecent b c → moreRecent a c := by
  simp only [moreRecent, decide_eq_true_eq]
  exact fun h₁ h₂ => le_trans h₂ h₁

/-- The comparison `moreRecent` is total. -/
theorem moreRecent_total (a b : DecisionRecord) :
    moreRecent a b || moreRecent b a := by
  simp only [moreRecent, Bool.or_eq_true, decide_eq_true_eq]
  exact le_total (createdAtKey b) (createdAtKey a)

/-- The filtering step never invents records and, for a non-empty customer id,
keeps exactly the records of that customer. -/
theorem mem_decisions_filtered {l : List DecisionRecord} {c : String} (hc : c ≠ "")
    {r : DecisionRecord} (hr : r ∈ decisions_filtered l (some c)) :
    r ∈ l ∧ r.customer_id = some c := by
  simp only [decisions_filtered, if_neg hc, List.mem_filter, decide_eq_true_eq] at hr
  exact hr

/-- C4 (amended): `list_decisions` returns records sorted most-recent-first by
`created_at`, truncated to the limit; a supplied non-empty `customer_id`
restricts the result to that customer's records, while an omitted or
empty-string `customer_id` (Python-falsy) leaves the store unfiltered, and
with a large enough limit the result is a permutation of the filtered store. -/
theorem list_decisions_spec (l : List DecisionRecord) (cid : Option String) (limit : Nat) :
    List.Sorted (fun a b => createdAtKey b ≤ createdAtKey a) (list_decisions l cid limit) ∧
    (list_decisions l cid limit).length = min limit (decisions_filtered l cid).length ∧
    (∀ c, cid = some c → c ≠ "" →
      ∀ r ∈ list_decisions l cid limit, r ∈ l ∧ r.customer_id = some c) ∧
    ((cid = none ∨ cid = some "") → decisions_filtered l cid = l) ∧
    ((decisions_filtered l cid).length ≤ limit →
      (list_decisions l cid limit).Perm (decisions_filtered l cid)) := by
  refine ⟨?_, ?_, ?_, ?_, ?_⟩
  · have hp : ((decisions_filtered l cid).mergeSort moreRecent).Pairwise
        (fun a b => moreRecent a b) :=
      List.sorted_mergeSort moreRecent_trans moreRecent_total (decisions_filtered l cid)
    have hp' : ((decisions_filtered l cid).mergeSort moreRecent).Pairwise
        (fun a b => createdAtKey b ≤ createdAtKey a) := by
      refine hp.imp ?_
      intro a b h
      simpa [moreRecent, decide_eq_true_eq] using h
    exact List.Pairwise.sublist (List.take_sublist limit _) hp'
  · simp [list_decisions]
  · intro c hcid hc r hr
    subst hcid
    have hr' : r ∈ decisions_filtered l (some c) :=
      List.mem_mergeSort.mp ((List.take_sublist limit _).subset hr)
    exact mem_decisions_filtered hc hr'
  · rintro (h | h) <;> subst h <;> simp [decisions_filtered]
  · intro hlen
    rw [list_decisions, List.take_of_length_le (by simpa using hlen)]
    exact List.mergeSort_perm _ _

theorem list_decisions_spec_witness :
    List.Sorted (fun a b => createdAtKey b ≤ createdAtKey a) (list_decisions [recA] (some "A") 5) ∧
    (list_decisions [recA] (some "A") 5).length
      = min 5 (decisions_filtered [recA] (some "A")).length ∧
    (∀ r ∈ list_decisions [recA] (some "A") 5, r ∈ [recA] ∧ r.customer_id = some "A") ∧
    (list_decisions [recA] (some "A") 5).Perm (decisions_filtered [recA] (some "A")) :=
  ⟨(list_decisions_spec [recA] (some "A") 5).1,
   (list_decisions_spec [recA] (some "A") 5).2.1,
   fun r hr => (list_decisions_spec [recA] (some "A") 5).2.2.1 "A" rfl (by decide) r hr,
   (list_decisions_spec [recA] (some "A") 5).2.2.2.2 (by decide)⟩

/-- C4 counterexample: with the empty string supplied as `customer_id`, the
query is not restricted to that customer id — the Python-falsy empty string
disables the filter, so a record of customer "B" is returned. -/
theorem list_decisions_restrict_cex :
    list_decisions [recB] (some "") 5 = [recB] ∧ recB.customer_id ≠ some "" := by
  constructor
  · calc list_decisions [recB] (some "") 5
        = ([recB].mergeSort moreRecent).take 5 := by
          simp [list_decisions, decisions_filtered]
      _ = [recB] := by
          rw [List.mergeSort_singleton]
          rfl
  · decide

/-- C5 counterexample: the store holds one record, none of whose customer ids
is the requested `""`, yet the query for `""` returns a non-empty sequence. -/
theorem list_decisions_empty_cid_cex :
    (∀ r ∈ load_decisions (StoreContent.records [recA]), r.customer_id ≠ some "") ∧
    list_decisions (load_decisions (StoreContent.records [recA])) (some "") 100 ≠ [] := by
  constructor
  · decide
  · show list_decisions [recA] (some "") 100 ≠ []
    have h : list_decisions [recA] (some "") 100 = [recA] := by
      calc list_decisions [recA] (some "") 100
          = ([recA].mergeSort moreRecent).take 100 := by
            simp [list_decisions, decisions_filtered]
        _ = [recA] := by
            rw [List.mergeSort_singleton]
            rfl
    simp [h]

/-- C5 (amended): `list_decisions` never fails: on a missing file, an empty
store, or a store with no record for a requested non-empty `customer_id`, it
returns the empty sequence (an empty-string `customer_id` is Python-falsy and
is instead treated as no filter). -/
theorem list_decisions_empty_cases (cid : Option String) (limit : Nat)
    (l : List DecisionRecord) (c : String) (hc : c ≠ "")
    (hnone : ∀ r ∈ l, r.customer_id ≠ some c) :
    list_decisions (load_decisions StoreContent.missing) cid limit = [] ∧
    list_decisions (load_decisions (StoreContent.records [])) cid limit = [] ∧
    list_decisions l (some c) limit = [] := by
  have hnil : ∀ cid', decisions_filtered ([] : List DecisionRecord) cid' = [] := by
    intro cid'
    cases cid' with
    | none => rfl
    | some c' =>
        simp only [decisions_filtered]
        split <;> simp
  refine ⟨?_, ?_, ?_⟩
  · show list_decisions [] cid limit = []
    simp [list_decisions, hnil]
  · show list_decisions [] cid limit = []
    simp [list_decisions, hnil]
  · have hfil : decisions_filtered l (some c) = [] := by
      simp only [decisions_filtered, if_neg hc]
      exact List.filter_eq_nil_iff.mpr fun r hr => by
        simpa using hnone r hr
    simp [list_decisions, hfil]

theorem list_decisions_empty_cases_witness :
    list_decisions (load_decisions StoreContent.missing) (some "A") 7 = [] ∧
    list_decisions (load_decisions (StoreContent.records [])) (some "A") 7 = [] ∧
    list_decisions [recA] (some "Z") 7 = [] :=
  list_decisions_empty_cases (some "A") 7 [recA] "Z" (by decide) (by decide)

/-- C1: for every rule-satisfaction count, 11 maps to APPROVE, at least 8 and
below 11 to REVIEW, below 8 to REJECT; the boundary counts 7, 8, 10 and 11 map
to REJECT, REVIEW, REVIEW and APPROVE respectively. -/
theorem decision_mapping_exact (n : Nat) :
    (n = 11 → decision_from_rules_satisfied n = some "APPROVE") ∧
    (8 ≤ n → n < 11 → decision_from_rules_satisfied n = some "REVIEW") ∧
    (n < 8 → decision_from_rules_satisfied n = some "REJECT") ∧
    decision_from_rules_satisfied 7 = some "REJECT" ∧
    decision_from_rules_satisfied 8 = some "REVIEW" ∧
    decision_from_rules_satisfied 10 = some "REVIEW" ∧
    decision_from_rules_satisfied 11 = some "APPROVE" := by
  refine ⟨fun h => by subst h; decide, fun h₁ h₂ => ?_, fun h => ?_,
    by decide, by decide, by decide, by decide⟩
  · simp only [decision_from_rules_satisfied]
    rw [if_neg (by omega), if_pos ⟨h₁, h₂⟩]
  · simp only [decision_from_rules_satisfied]
    rw [if_neg (by omega), if_neg (by omega), if_pos h]

theorem decision_mapping_exact_witness :
    decision_from_rules_satisfied 9 = some "REVIEW" :=
  (decision_mapping_exact 9).2.1 (by decide) (by decide)

/-- C3 counterexample: the decision-update operation the code exposes
(`update_decision_row`) edits one row in place; after a call for customer
"C9" the store still holds two records for that customer, so no
remove-then-append override semantics and no at-most-one-record invariant
hold. -/
theorem override_latest_cex :
    ((update_decision_row [rowOne, rowTwo] "1" "C9" "APPROVE" "manual override").countP
        fun r => decide (r.customer_id = some "C9")) = 2 ∧
    (update_decision_row [rowOne, rowTwo] "1" "C9" "APPROVE" "manual override").length = 2 := by
  decide

/-- C3 (amended): `update_decision_row` updates in place the rows whose `id`
matches the given decision id, replacing only their `customer_id`, `decision`
and `reason` fields; it removes nothing, preserves the row count, and leaves
every non-matching row unchanged. -/
theorem update_decision_row_spec (table : List DecisionRecord)
    (did cId dec rsn : String) :
    (update_decision_row table did cId dec rsn).length = table.length ∧
    (∀ r ∈ table, r.id ≠ some did → r ∈ update_decision_row table did cId dec rsn) ∧
    (∀ r ∈ table, r.id = some did →
      { r with customer_id := some cId, decision := some dec, reason := some rsn }
        ∈ update_decision_row table did cId dec rsn) ∧
    (∀ r ∈ update_decision_row table did cId dec rsn, r.id ≠ some did → r ∈ table) := by
  refine ⟨by simp [update_decision_row], ?_, ?_, ?_⟩
  · intro r hr hne
    have h := List.mem_map_of_mem
      (fun row => if row.id = some did then
        { row with customer_id := some cId, decision := some dec, reason := some rsn }
      else row) hr
    simp only [if_neg hne] at h
    simpa only [update_decision_row] using h
  · intro r hr hid
    have h := List.mem_map_of_mem
      (fun row => if row.id = some did then
        { row with customer_id := some cId, decision := some dec, reason := some rsn }
      else row) hr
    simp only [if_pos hid] at h
    simpa only [update_decision_row] using h
  · intro r hr hne
    obtain ⟨a, ha, hfa⟩ := List.mem_map.mp hr
    by_cases hid : a.id = some did
    · rw [if_pos hid] at hfa
      refine absurd ?_ hne
      rw [← hfa]
      exact hid
    · rw [if_neg hid] at hfa
      exact hfa ▸ ha

/-- C6: credit utilization is the sum of current balances over the sum of
credit limits, times 100, and is null (with no division ever evaluated) when
the total credit limit is 0. -/
theorem credit_utilization_spec (cards : List CreditCard) :
    (total_credit_limit cards = 0 → credit_utilization_pct cards = none) ∧
    (total_credit_limit cards ≠ 0 →
      credit_utilization_pct cards
        = some ((cards.map fun c => c.current_balance.getD 0).sum
            / (cards.map fun c => c.credit_limit.getD 0).sum * 100)) := by
  constructor
  · intro h
    simp [credit_utilization_pct, h]
  · intro h
    rw [credit_utilization_pct, if_neg h, total_balance, total_credit_limit]

theorem credit_utilization_spec_witness :
    credit_utilization_pct [cardZ] = none ∧
    credit_utilization_pct [cardA]
      = some ((([cardA] : List CreditCard).map fun c => c.current_balance.getD 0).sum
          / (([cardA] : List CreditCard).map fun c => c.credit_limit.getD 0).sum * 100) :=
  ⟨(credit_utilization_spec [cardZ]).1 (by simp [total_credit_limit, cardZ]),
   (credit_utilization_spec [cardA]).2 (by simp [total_credit_limit, cardA])⟩

/-- The estimate is null exactly when the window has no transaction matching
the (lowercased) credit test. -/
theorem monthly_income_estimate_none_iff (txs : List Transaction) :
    monthly_income_estimate txs = none ↔ ∀ t ∈ txs, ¬ isCreditTx t := by
  rw [monthly_income_estimate, List.max?_eq_none_iff, List.map_eq_nil_iff,
    List.filter_eq_nil_iff]

/-- A non-null estimate is attained by a matching transaction and bounds the
amounts of all matching transactions. -/
theorem monthly_income_estimate_some (txs : List Transaction) (m : ℚ)
    (h : monthly_income_estimate txs = some m) :
    (∃ t ∈ txs, isCreditTx t ∧ t.amount.getD 0 = m) ∧
    ∀ t ∈ txs, isCreditTx t → t.amount.getD 0 ≤ m := by
  rw [monthly_income_estimate] at h
  constructor
  · have hm := List.max?_mem (fun a b => max_choice a b) h
    obtain ⟨t, ht, hta⟩ := List.mem_map.mp hm
    have ht' := List.mem_filter.mp ht
    exact ⟨t, ht'.1, ht'.2, hta⟩
  · intro t ht htc
    have hb := (List.max?_le_iff (fun a b c => max_le_iff) h).mp (le_refl m)
    exact hb _ (List.mem_map_of_mem _ (List.mem_filter.mpr ⟨ht, htc⟩))

/-- C7 (amended): within the lookback window (the at most 50 most recent
transactions by date), `monthly_income_estimate` is the maximum amount
(missing amounts read as 0) over the transactions whose `type`, stringified
and lowercased, equals "credit", and it is null exactly when the window has
no such transaction. -/
theorem monthly_income_estimate_spec (stmts : List StatementEntry) (customerId : String) :
    (get_transactions stmts customerId 50).length ≤ 50 ∧
    (monthly_income_estimate_chat stmts customerId = none ↔
      ∀ t ∈ get_transactions stmts customerId 50, ¬ isCreditTx t) ∧
    (∀ m, monthly_income_estimate_chat stmts customerId = some m →
      (∃ t ∈ get_transactions stmts customerId 50, isCreditTx t ∧ t.amount.getD 0 = m) ∧
      ∀ t ∈ get_transactions stmts customerId 50, isCreditTx t → t.amount.getD 0 ≤ m) := by
  refine ⟨?_, monthly_income_estimate_none_iff _, fun m h => monthly_income_estimate_some _ m h⟩
  rw [get_transactions]
  cases stmts.find? fun e => decide (e.customer_id = some customerId) with
  | none => simp
  | some e => exact List.length_take_le 50 _

/-- The api_chat window for customer "C1" over `[entryC1]`. -/
theorem window_entryC1 : get_transactions [entryC1] "C1" 50 = [txCredit] := by
  show (([txCredit] : List Transaction).mergeSort laterDate).take 50 = [txCredit]
  rw [List.mergeSort_singleton]
  rfl

/-- C7 counterexample: the window holds a single transaction whose `type` is
"Credit", not "credit", yet the income estimate is its amount rather than
null — the code matches the type case-insensitively. -/
theorem monthly_income_estimate_cex :
    monthly_income_estimate_chat [entryC1] "C1" = some 5 ∧
    ∀ t ∈ get_transactions [entryC1] "C1" 50, t.type ≠ some "credit" := by
  rw [monthly_income_estimate_chat, window_entryC1]
  exact ⟨by decide, by decide⟩

theorem monthly_income_estimate_spec_witness :
    (∃ t ∈ get_transactions [entryC1] "C1" 50, isCreditTx t ∧ t.amount.getD 0 = 5) ∧
    ∀ t ∈ get_transactions [entryC1] "C1" 50, isCreditTx t → t.amount.getD 0 ≤ 5 :=
  (monthly_income_estimate_spec [entryC1] "C1").2.2 5 (by
    rw [monthly_income_estimate_chat, window_entryC1]
    decide)

theorem update_decision_row_spec_witness :
    (update_decision_row [rowOne, rowTwo] "1" "C9" "APPROVE" "ok").length
      = ([rowOne, rowTwo] : List DecisionRecord).length ∧
    rowTwo ∈ update_decision_row [rowOne, rowTwo] "1" "C9" "APPROVE" "ok" :=
  ⟨(update_decision_row_spec [rowOne, rowTwo] "1" "C9" "APPROVE" "ok").1,
   (update_decision_row_spec [rowOne, rowTwo] "1" "C9" "APPROVE" "ok").2.1
     rowTwo (by decide) (by decide)⟩

/-- C8: on a fully repaid loan the JSON backend's summary counts it as active
(`len(loans)` = 1), while the claimed count of loans with
`outstanding_amount > 0` is 0 — agent.py's filter agrees with the claim. -/
theorem active_loans_count_divergence :
    active_loans_count_backend [repaidLoan] = 1 ∧
    active_loans_count_agent [repaidLoan] = 0 ∧
    (([repaidLoan] : List Loan).filter fun l =>
        decide (0 < l.outstanding_amount.getD 0)).length = 0 := by
  refine ⟨rfl, ?_, ?_⟩ <;> decide

/-- C10: for a customer id that occurs in none of the data files, the read
accessors `get_transactions`, `get_credit_cards` and `get_loans` all return
the empty list, and only `get_customer` signals the unknown id, by returning
`None`. -/
theorem unknown_customer_reads_empty (customers : List Customer)
    (stmts : List StatementEntry) (customerId : String) (limit : Nat)
    (hc : ∀ c ∈ customers, c.customer_id ≠ some customerId)
    (hs : ∀ e ∈ stmts, e.customer_id ≠ some customerId) :
    get_customer customers customerId = none ∧
    get_transactions stmts customerId limit = [] ∧
    get_credit_cards customers customerId = [] ∧
    get_loans customers customerId = [] := by
  have h1 : get_customer customers customerId = none := by
    rw [get_customer, List.find?_eq_none]
    intro c hcm
    simpa using hc c hcm
  have h2 : (stmts.find? fun e => decide (e.customer_id = some customerId)) = none := by
    rw [List.find?_eq_none]
    intro e he
    simpa using hs e he
  refine ⟨h1, ?_, ?_, ?_⟩
  · rw [get_transactions, h2]
  · rw [get_credit_cards, h1]
  · rw [get_loans, h1]

theorem unknown_customer_reads_empty_witness :
    get_customer [custC1] "C2" = none ∧
    get_transactions [entryC1] "C2" 200 = [] ∧
    get_credit_cards [custC1] "C2" = [] ∧
    get_loans [custC1] "C2" = [] :=
  unknown_customer_reads_empty [custC1] [entryC1] "C2" 200 (by decide) (by decide)

end BankWorker
